import Mathlib

/-!
Verification of the pydevlake subtask execution engine
(`backend/python/pydevlake/pydevlake/subtasks.py`).

The file gives a shallow embedding of the engine: the checkpoint table
`SubtaskRun` and the resumption query `Subtask._get_last_state`, the
generic run-loop `Subtask.run` (with its try/except structure made
explicit through injected-failure flags and an event trace), the
`Collector` stage, and the `Convertor` stage.  Timestamps are modelled
as natural numbers, JSON state dictionaries as association lists of
atomic values, and fetched items as opaque integers.  The JSON
encode/decode of the state between the engine and the `state` column is
a faithful round-trip in the source, so the embedding stores the state
dictionary directly.
-/

namespace Pydevlake

/-- A JSON object of atomic values: the opaque `state` dict threaded
through the run-loop (`state: str # JSON encoded dict of atomic values`). -/
abbrev St := List (String × Int)

/-- An opaque fetched item (the source treats `data` as `object`). -/
abbrev Data := Int

/-- Row of the checkpoint table, mirroring class `SubtaskRun` in the
source: `id`, `subtask_name`, `connection_id`, `started`,
`completed: Optional[datetime]`, `state`. -/
structure SubtaskRun where
  id : Option Nat := none
  subtask_name : String
  connection_id : Nat
  started : Nat
  completed : Option Nat
  state : St
deriving DecidableEq, Repr

/-- The filter of `Subtask._get_last_state`:
`subtask_name == name`, `connection_id == cid`, `completed != None`. -/
def SubtaskRun.matchesQuery (name : String) (cid : Nat) (r : SubtaskRun) : Bool :=
  r.subtask_name == name && r.connection_id == cid && r.completed.isSome

/-- Result of `.order_by(SubtaskRun.started)` (ascending) followed by
`.first()`: the first row among those with minimal `started`
(a stable ascending sort keeps the earlier row on ties). -/
def firstByStarted : List SubtaskRun → Option SubtaskRun
  | [] => none
  | r :: rs =>
    match firstByStarted rs with
    | none => some r
    | some m => if r.started ≤ m.started then some r else some m

namespace Subtask

/-- Embedding of `Subtask._get_last_state`: filter the checkpoint table by
subtask name, connection id and `completed != None`, order by `started`
(ascending), take the first row and return its decoded state, or `{}`
when there is none. -/
def get_last_state (runs : List SubtaskRun) (name : String) (cid : Nat) : St :=
  match firstByStarted (runs.filter (SubtaskRun.matchesQuery name cid)) with
  | some r => r.state
  | none => []

end Subtask

/-- Definition following the spec's words for `lastCompletedState`:
the state of the most recently *started* SubtaskRun among those with a
completion timestamp set, for the same subtask name and connection;
empty mapping when none exists.  Stated for comparison with the
source-derived `Subtask.get_last_state`. -/
def lastByStarted : List SubtaskRun → Option SubtaskRun
  | [] => none
  | r :: rs =>
    match lastByStarted rs with
    | none => some r
    | some m => if m.started ≤ r.started then some r else some m

/-- Spec-worded resumption query (most recently started completed run). -/
def lastCompletedState (runs : List SubtaskRun) (name : String) (cid : Nat) : St :=
  match lastByStarted (runs.filter (SubtaskRun.matchesQuery name cid)) with
  | some r => r.state
  | none => []

/-- Observable events of one run, in program order.  `addRun` is the
`session.add(subtask_run)` in `_start_subtask` (staged on the session,
not committed); `ckptCommit` and `finalCommit` are the
`session.merge(subtask_run); session.commit()` pairs inside the loop and
at finalization; `progress` is the `yield RemoteProgress(...)`;
`errLog` is the `logger.error(e)` of the except clause. -/
inductive Ev
  | addRun
  | deleteCall
  | fetchInit (s : St)
  | procCall (i : Nat) (d : Data)
  | ckptCommit (i : Nat) (s : St)
  | progress (increment : Nat) (current : Nat)
  | errLog
  | finalCommit (s : St)
deriving DecidableEq, Repr

/-- A stage implementation: the abstract `delete`/`process` methods of
`Subtask`, acting on a stage-specific store `σ` (`fetch` results are the
run configuration's item list, since `fetch` only produces the sequence
the loop consumes). -/
structure Stage (σ : Type) where
  name : String
  deleteOp : σ → σ
  processOp : Data → σ → σ

/-- Configuration of one call to `Subtask.run`: the mode flag, the
connection, the sync point interval (default 100 in the source), the
sequence the fetch generator yields, and flags injecting an exception at
each place the Python code can raise: the fetch generator after its last
yield, `process` at a given index, the checkpoint `session.commit()` at a
given index, `delete`, `_get_last_state`, and the finalization commit. -/
structure RunCfg where
  incremental : Bool
  connection_id : Nat
  sync_point_interval : Nat := 100
  items : List (Data × St)
  fetchRaisesAfter : Bool := false
  processRaisesAt : Option Nat := none
  checkpointRaisesAt : Option Nat := none
  deleteRaises : Bool := false
  getStateRaises : Bool := false
  finalizeRaises : Bool := false
deriving Repr

/-- Result of the for-loop of `Subtask.run`: trace of events it emitted,
the final value of the `state` variable, the final stage store, and
whether an exception was caught by the surrounding `except` clause. -/
structure LoopOut (σ : Type) where
  trace : List Ev
  state : St
  db : σ
  errored : Bool

/-- Embedding of the `for i, (data, state) in enumerate(self.fetch(...))`
loop.  For each yielded pair the loop rebinds `state`, calls `process`,
and when `i % sync_point_interval == 0 and i != 0` saves the current
state (merge + commit) and yields a progress message.  An exception from
`process` or from the checkpoint commit stops the loop with
`errored = true`; when the generator raises after its last yield the
loop also ends with `errored = true`. -/
def runLoop {σ : Type} (stage : Stage σ) (interval : Nat)
    (procFail ckptFail : Option Nat) (fetchRA : Bool) :
    List (Data × St) → Nat → St → σ → LoopOut σ
  | [], _, st, db => ⟨[], st, db, fetchRA⟩
  | (d, s) :: rest, i, _, db =>
    if procFail = some i then
      ⟨[.procCall i d], s, db, true⟩
    else
      let db2 := stage.processOp d db
      if i % interval == 0 && i != 0 then
        if ckptFail = some i then
          ⟨[.procCall i d], s, db2, true⟩
        else
          let r := runLoop stage interval procFail ckptFail fetchRA rest (i + 1) s db2
          ⟨.procCall i d :: .ckptCommit i s :: .progress interval i :: r.trace,
            r.state, r.db, r.errored⟩
      else
        let r := runLoop stage interval procFail ckptFail fetchRA rest (i + 1) s db2
        ⟨.procCall i d :: r.trace, r.state, r.db, r.errored⟩

/-- Result of a completed `Subtask.run`: the full event trace, the final
stage store, and the finalized checkpoint row. -/
structure RunOut (σ : Type) where
  trace : List Ev
  db : σ
  runRec : SubtaskRun

namespace Subtask

/-- Embedding of `Subtask._start_subtask`: the fresh `SubtaskRun` row
(`state=json.dumps({})`, no completion time) that is `session.add`-ed. -/
def start_subtask (name : String) (connection_id : Nat) (now : Nat) : SubtaskRun :=
  { subtask_name := name, connection_id := connection_id, started := now,
    completed := none, state := [] }

/-- Shared tail of `Subtask.run`: run the loop from the initial state,
log when the except clause fired, then finalize (overwrite `state`, set
`completed`, merge + commit).  An exception from the finalization commit
is outside the try block and propagates (`Except.error`). -/
def runBody {σ : Type} (stage : Stage σ) (cfg : RunCfg) (subtask_run : SubtaskRun)
    (pre : List Ev) (state0 : St) (db0 : σ) : Except (List Ev) (RunOut σ) :=
  let r := runLoop stage cfg.sync_point_interval cfg.processRaisesAt
    cfg.checkpointRaisesAt cfg.fetchRaisesAfter cfg.items 0 state0 db0
  let t := pre ++ Ev.fetchInit state0 :: r.trace ++ (if r.errored then [Ev.errLog] else [])
  if cfg.finalizeRaises then Except.error t
  else Except.ok ⟨t ++ [Ev.finalCommit r.state], r.db,
    { subtask_run with state := r.state, completed := some 1 }⟩

/-- Embedding of `Subtask.run`: start (add, uncommitted) a new
`SubtaskRun`; in incremental mode load the last state via
`_get_last_state`, otherwise call `delete` and start from `{}`
(exceptions from either step are outside the try block and propagate);
then iterate the fetch sequence and finalize. -/
def run {σ : Type} (stage : Stage σ) (cfg : RunCfg) (runs : List SubtaskRun)
    (db : σ) : Except (List Ev) (RunOut σ) :=
  let subtask_run := start_subtask stage.name cfg.connection_id 0
  if cfg.incremental then
    if cfg.getStateRaises then Except.error [Ev.addRun]
    else
      runBody stage cfg subtask_run [Ev.addRun]
        (get_last_state runs stage.name cfg.connection_id) db
  else
    if cfg.deleteRaises then Except.error [Ev.addRun]
    else
      runBody stage cfg subtask_run [Ev.addRun, Ev.deleteCall] [] (stage.deleteOp db)

/-- Event trace of a run, whether it completed or propagated an
exception part-way. -/
def runTrace {σ : Type} (stage : Stage σ) (cfg : RunCfg) (runs : List SubtaskRun)
    (db : σ) : List Ev :=
  match run stage cfg runs db with
  | .ok o => o.trace
  | .error t => t

/-- Whether the run returned to its caller without propagating an
exception. -/
def runOk {σ : Type} (stage : Stage σ) (cfg : RunCfg) (runs : List SubtaskRun)
    (db : σ) : Bool :=
  match run stage cfg runs db with
  | .ok _ => true
  | .error _ => false

/-- The finalized checkpoint row of a completed run (the freshly started
row when the run propagated an exception, which `runOk` rules out where
this is used). -/
def runRecD {σ : Type} (stage : Stage σ) (cfg : RunCfg) (runs : List SubtaskRun)
    (db : σ) : SubtaskRun :=
  match run stage cfg runs db with
  | .ok o => o.runRec
  | .error _ => start_subtask stage.name cfg.connection_id 0

/-- The stage store after a completed run (unchanged input store when
the run propagated an exception). -/
def runDbD {σ : Type} (stage : Stage σ) (cfg : RunCfg) (runs : List SubtaskRun)
    (db : σ) : σ :=
  match run stage cfg runs db with
  | .ok o => o.db
  | .error _ => db

/-- The events recorded before the fetch loop begins. -/
def preEvents (cfg : RunCfg) : List Ev :=
  if cfg.incremental then [Ev.addRun] else [Ev.addRun, Ev.deleteCall]

/-- The initial state the loop starts from: last completed state in
incremental mode, the empty dict in full-refresh mode. -/
def initState (cfg : RunCfg) (runs : List SubtaskRun) (name : String) : St :=
  if cfg.incremental then get_last_state runs name cfg.connection_id else []

/-- The stage store the loop starts from: untouched in incremental mode,
with `delete` applied in full-refresh mode. -/
def initDb {σ : Type} (stage : Stage σ) (cfg : RunCfg) (db : σ) : σ :=
  if cfg.incremental then db else stage.deleteOp db

end Subtask

/-- The params fingerprint built by `Collector._params`:
`json.dumps({"connection_id": ..., "scope_id": ...})`.  The JSON
rendering of this two-field object is value-determined, so it is
modelled by the record itself. -/
structure Params where
  connection_id : Nat
  scope_id : Int
deriving DecidableEq, Repr

/-- JSON encoding of one fetched item (`json.dumps(data).encode('utf8')`
for an atomic item). -/
def json_encode (d : Data) : String := toString d

/-- A row of the raw table: `params` fingerprint plus opaque `data`
payload. -/
structure RawRecord where
  params : Params
  data : String
deriving DecidableEq, Repr

namespace Collector

/-- The row inserted by `Collector.process`: current params fingerprint
and the JSON-encoded item. -/
def raw_record (P : Params) (d : Data) : RawRecord :=
  { params := P, data := json_encode d }

/-- `Collector.process`: `session.add` of one new raw row per item. -/
def processOp (P : Params) (d : Data) (db : List RawRecord) : List RawRecord :=
  db ++ [raw_record P d]

/-- `Collector.delete`: `DELETE FROM raw WHERE params == self._params(ctx)` —
keep exactly the rows whose params differ from the current fingerprint. -/
def deleteOp (P : Params) (db : List RawRecord) : List RawRecord :=
  db.filter (fun r => !(r.params == P))

/-- The Collector as a stage for the generic run-loop. -/
def stage (name : String) (P : Params) : Stage (List RawRecord) :=
  { name := name, deleteOp := deleteOp P, processOp := processOp P }

end Collector

/-- A tool-layer record; `pk` stands for its identity (primary key
material) used by domain id generation. -/
structure ToolModel where
  pk : String
deriving DecidableEq, Repr

/-- A domain-layer record with its generated identifier. -/
structure DomainModel where
  id : String
  payload : Int
deriving DecidableEq, Repr

/-- One value produced by a stream's `convert`: either a proper
`DomainModel` or some other Python value (list, string, None, ...),
which `_save` rejects. -/
inductive ConvValue
  | domain (m : DomainModel)
  | other (description : String)
deriving DecidableEq, Repr

/-- The result of one invocation of `stream.convert`: either a single
value or a generator yielding a sequence of values (the
`isinstance(res, Generator)` branch of `Convertor.process`). -/
inductive ConvResult
  | single (v : ConvValue)
  | gen (vs : List ConvValue)
deriving DecidableEq, Repr

/-- Modelled from the spec: `generate_domain_id` lives in
`pydevlake/model.py`, which is outside this fragment.  The spec requires
a pure function `generateDomainId(toolRecord, connectionId) -> string`,
deterministic and injective enough that distinct (tool identity,
connection) pairs never collide.  The concrete rendering of the
connection id is immaterial to the spec; a unary rendering keeps the
no-collision property elementary. -/
def generate_domain_id (tool_model : ToolModel) (connection_id : Nat) : String :=
  tool_model.pk ++ ":" ++ String.mk (List.replicate connection_id '*')

/-- Side effects accumulated by the Convertor: the sequence of upserted
domain rows (`session.merge`) and the number of `logger.error` calls. -/
structure ConvEffects where
  upserts : List DomainModel
  errors : Nat
deriving DecidableEq, Repr

/-- Outcome of one `Convertor.process` call: effects, the number of
invocations of the stream's `convert`, and whether a TypeError escaped
(iterating a non-generator second result). -/
structure ConvOut where
  eff : ConvEffects
  calls : Nat
  raised : Bool
deriving DecidableEq, Repr

namespace Convertor

/-- Embedding of `Convertor._save`: a non-DomainModel value is logged as
an error and skipped; a DomainModel gets
`id = generate_domain_id(tool_model, connection_id)` and is merged
(upserted). -/
def save (tool_model : ToolModel) (domain_model : ConvValue) (connection_id : Nat)
    (eff : ConvEffects) : ConvEffects :=
  match domain_model with
  | .other _ => { eff with errors := eff.errors + 1 }
  | .domain m =>
    { eff with upserts :=
        eff.upserts ++ [{ m with id := generate_domain_id tool_model connection_id }] }

/-- Embedding of `Convertor.process`.  The stream's `convert` is modelled
as a function of the invocation index, so that the embedding records how
many times `self.stream.convert(tool_model)` is called and which
invocation's result is consumed.  The source calls it once; if the
result is a generator it calls it a second time and iterates that second
result (the first generator is dropped unconsumed); otherwise it saves
the single result.  Iterating a non-generator second result raises. -/
def process (convert : Nat → ConvResult) (tool_model : ToolModel)
    (connection_id : Nat) (eff : ConvEffects) : ConvOut :=
  match convert 0 with
  | .gen _ =>
    match convert 1 with
    | .gen vs =>
      ⟨vs.foldl (fun e v => save tool_model v connection_id e) eff, 2, false⟩
    | .single _ => ⟨eff, 2, true⟩
  | .single v => ⟨save tool_model v connection_id eff, 1, false⟩

end Convertor

/-- Checkpoint-plus-progress events (the sync-point pair). -/
def isSyncEv : Ev → Bool
  | .ckptCommit _ _ => true
  | .progress _ _ => true
  | _ => false

/-- Events that make a write durable (`session.commit()` sites). -/
def isCommit : Ev → Bool
  | .ckptCommit _ _ => true
  | .finalCommit _ => true
  | _ => false

/-- Start of fetch consumption. -/
def isFetchInit : Ev → Bool
  | .fetchInit _ => true
  | _ => false

/-- Pair every element with its index, starting from `i`
(`enumerate` with a start offset). -/
def enumFromIdx {α : Type} (i : Nat) : List α → List (Nat × α)
  | [] => []
  | x :: xs => (i, x) :: enumFromIdx (i + 1) xs

/-- The sync events the cadence policy prescribes for an indexed fetch
sequence: a checkpoint of the state yielded at index `i` followed by a
progress message `(increment, current) = (interval, i)`, exactly at the
indices that are positive multiples of the interval. -/
def syncExpected (interval : Nat) : List (Nat × (Data × St)) → List Ev
  | [] => []
  | (i, (_, s)) :: rest =>
    (if i % interval == 0 && i != 0 then
      [Ev.ckptCommit i s, Ev.progress interval i] else [])
      ++ syncExpected interval rest

/-- The `state` variable after a loop over `items` that started at
`st`: the second component yielded with the last item, or `st` when the
sequence is empty. -/
def lastStateD (st : St) : List (Data × St) → St
  | [] => st
  | (_, s) :: rest => lastStateD s rest

/-- A stage with a trivial store, for exercising the generic run-loop. -/
def unitStage : Stage Unit := ⟨"stage", id, fun _ => id⟩

/-- A 250-item fetch sequence with the default sync point interval of
100, in full-refresh mode. -/
def cfg250 : RunCfg :=
  { incremental := false, connection_id := 1,
    items := (List.range 250).map (fun k => ((k : Int), [("k", (k : Int))])) }

/-- A run configuration whose `delete` raises. -/
def cfgDeleteRaises : RunCfg :=
  { incremental := false, connection_id := 1, items := [], deleteRaises := true }

/-- A two-item full-refresh configuration with no injected failures. -/
def cfgStartTwo : RunCfg :=
  { incremental := false, connection_id := 1,
    items := [(5, [("a", 1)]), (6, [("a", 2)])] }

/-- A completed checkpoint row started at time 1. -/
def runEarly : SubtaskRun :=
  { subtask_name := "collectFooBar", connection_id := 1, started := 1,
    completed := some 10, state := [("cursor", 1)] }

/-- A completed checkpoint row for the same subtask and connection,
started later (time 2) with a different state. -/
def runLate : SubtaskRun :=
  { subtask_name := "collectFooBar", connection_id := 1, started := 2,
    completed := some 20, state := [("cursor", 2)] }

/-- A trivial-store stage named like the checkpoint rows above. -/
def collectStage : Stage Unit := ⟨"collectFooBar", id, fun _ => id⟩

/-- A fetch sequence that raises after yielding three items. -/
def cfg3of10 : RunCfg :=
  { incremental := false, connection_id := 1,
    items := [(1, [("page", 1)]), (2, [("page", 2)]), (3, [("page", 3)])],
    fetchRaisesAfter := true }

/-- A configuration with failures injected inside the loop only. -/
def cfgProcRaises : RunCfg :=
  { incremental := false, connection_id := 1,
    items := [(1, [("a", 1)]), (2, [("a", 2)])],
    processRaisesAt := some 0, fetchRaisesAfter := true }

/-- An incremental one-item configuration. -/
def cfgIncr : RunCfg :=
  { incremental := true, connection_id := 1, items := [(9, [("a", 9)])] }

/-- The current params fingerprint. -/
def paramsP : Params := ⟨1, 7⟩

/-- A fingerprint of a different connection. -/
def paramsQ : Params := ⟨2, 7⟩

/-- A leftover raw row of the current scope from a prior run. -/
def rawOldP : RawRecord := ⟨paramsP, "old-p"⟩

/-- A raw row of a different scope. -/
def rawOldQ : RawRecord := ⟨paramsQ, "old-q"⟩

/-- A two-item full-refresh collection over the scope of `paramsP`. -/
def cfgCollect : RunCfg :=
  { incremental := false, connection_id := 1, items := [(41, []), (42, [])] }

/-- A tool record with identity `pk1`. -/
def toolW : ToolModel := ⟨"pk1"⟩

/-- The domain row the Convertor produces for `toolW` on connection 1
from a payload-5 conversion result. -/
def domW : DomainModel := ⟨"pk1:*", 5⟩

/-- A generator-returning convert whose first invocation yields junk the
code never consumes. -/
def fGen : Nat → ConvResult := fun n =>
  if n = 0 then .gen [.other "first-call"] else .gen [.domain ⟨"", 3⟩]

/-- Same as `fGen` from the second invocation on, with a different first
generator. -/
def gGen : Nat → ConvResult := fun n =>
  if n = 0 then .gen [] else .gen [.domain ⟨"", 3⟩]

lemma lastStateD_concat (st : St) (pre : List (Data × St)) (d : Data) (s : St) :
    lastStateD st (pre ++ [(d, s)]) = s := by
  induction pre generalizing st with
  | nil => rfl
  | cons hd tl ih => obtain ⟨d0, s0⟩ := hd; simp [lastStateD, ih]

lemma runLoop_errored {σ : Type} (stage : Stage σ) (interval : Nat) (ra : Bool)
    (items : List (Data × St)) :
    ∀ (i : Nat) (st : St) (db : σ),
      (runLoop stage interval none none ra items i st db).errored = ra := by
  induction items with
  | nil => intro i st db; simp [runLoop]
  | cons hd tl ih =>
    obtain ⟨d, s⟩ := hd
    intro i st db
    by_cases h : (i % interval == 0 && i != 0) = true <;>
      simp [runLoop, h, ih]

lemma runLoop_state {σ : Type} (stage : Stage σ) (interval : Nat) (ra : Bool)
    (items : List (Data × St)) :
    ∀ (i : Nat) (st : St) (db : σ),
      (runLoop stage interval none none ra items i st db).state = lastStateD st items := by
  induction items with
  | nil => intro i st db; simp [runLoop, lastStateD]
  | cons hd tl ih =>
    obtain ⟨d, s⟩ := hd
    intro i st db
    by_cases h : (i % interval == 0 && i != 0) = true <;>
      simp [runLoop, h, ih, lastStateD]

lemma runLoop_db {σ : Type} (stage : Stage σ) (interval : Nat) (ra : Bool)
    (items : List (Data × St)) :
    ∀ (i : Nat) (st : St) (db : σ),
      (runLoop stage interval none none ra items i st db).db
        = items.foldl (fun acc p => stage.processOp p.1 acc) db := by
  induction items with
  | nil => intro i st db; simp [runLoop]
  | cons hd tl ih =>
    obtain ⟨d, s⟩ := hd
    intro i st db
    by_cases h : (i % interval == 0 && i != 0) = true <;>
      simp [runLoop, h, ih]

lemma runLoop_filter_sync {σ : Type} (stage : Stage σ) (interval : Nat)
    (items : List (Data × St)) :
    ∀ (i : Nat) (st : St) (db : σ),
      ((runLoop stage interval none none false items i st db).trace.filter isSyncEv)
        = syncExpected interval (enumFromIdx i items) := by
  induction items with
  | nil => intro i st db; simp [runLoop, enumFromIdx, syncExpected]
  | cons hd tl ih =>
    obtain ⟨d, s⟩ := hd
    intro i st db
    by_cases h : (i % interval == 0 && i != 0) = true <;>
      simp [runLoop, h, ih, enumFromIdx, syncExpected, isSyncEv]

lemma runLoop_no_deleteCall {σ : Type} (stage : Stage σ) (interval : Nat)
    (pf cf : Option Nat) (ra : Bool) (items : List (Data × St)) :
    ∀ (i : Nat) (st : St) (db : σ),
      Ev.deleteCall ∉ (runLoop stage interval pf cf ra items i st db).trace := by
  induction items with
  | nil => intro i st db; simp [runLoop]
  | cons hd tl ih =>
    obtain ⟨d, s⟩ := hd
    intro i st db
    by_cases hp : pf = some i
    · simp [runLoop, hp]
    · by_cases h : (i % interval == 0 && i != 0) = true
      · by_cases hc : cf = some i
        · simp [runLoop, hp, h, hc]
        · simp [runLoop, hp, h, hc, ih]
      · simp [runLoop, hp, h, ih]

lemma run_eq_runBody {σ : Type} (stage : Stage σ) (cfg : RunCfg)
    (runs : List SubtaskRun) (db : σ)
    (h5 : cfg.deleteRaises = false) (h6 : cfg.getStateRaises = false) :
    Subtask.run stage cfg runs db
      = Subtask.runBody stage cfg
          (Subtask.start_subtask stage.name cfg.connection_id 0)
          (Subtask.preEvents cfg)
          (Subtask.initState cfg runs stage.name)
          (Subtask.initDb stage cfg db) := by
  cases hinc : cfg.incremental <;>
    simp [Subtask.run, Subtask.preEvents, Subtask.initState, Subtask.initDb,
      hinc, h5, h6]

lemma deleteCall_not_mem_errLogOpt (b : Bool) :
    Ev.deleteCall ∉ (if b then [Ev.errLog] else []) := by
  cases b <;> simp

/-- C1 (code bug): on a table holding two completed runs for the same
subtask and connection — `runEarly` started at time 1 with state
`(cursor, 1)`, `runLate` started at time 2 with state `(cursor, 2)` —
the source's `_get_last_state` (order by `started` ascending, take the
first row) returns the EARLIEST run's state, while the claim, and the
source's own docstring for `fetch` ("the last state of the last run of
this subtask"), require the most recently started run's state, which the
spec-worded `lastCompletedState` computes. -/
theorem get_last_state_returns_earliest_bug :
    Subtask.get_last_state [runEarly, runLate] "collectFooBar" 1 = [("cursor", 1)] ∧
    lastCompletedState [runEarly, runLate] "collectFooBar" 1 = [("cursor", 2)] ∧
    ([("cursor", 1)] : St) ≠ [("cursor", 2)] := by
  refine ⟨rfl, rfl, ?_⟩
  decide

/-- C2: for every fetch sequence and positive sync point interval, a
clean run's checkpoint-commit and progress events are exactly, in
order, a checkpoint of the state yielded at index i immediately followed
by a progress message with increment = interval and current = i, at
precisely the indices i that are positive multiples of the interval
(never index 0). -/
theorem run_checkpoint_cadence {σ : Type} (stage : Stage σ) (cfg : RunCfg)
    (runs : List SubtaskRun) (db : σ)
    (hpos : 0 < cfg.sync_point_interval)
    (h1 : cfg.fetchRaisesAfter = false) (h2 : cfg.processRaisesAt = none)
    (h3 : cfg.checkpointRaisesAt = none) (h4 : cfg.finalizeRaises = false)
    (h5 : cfg.deleteRaises = false) (h6 : cfg.getStateRaises = false) :
    Subtask.runOk stage cfg runs db = true ∧
    (Subtask.runTrace stage cfg runs db).filter isSyncEv
      = syncExpected cfg.sync_point_interval (enumFromIdx 0 cfg.items) := by
  have h := run_eq_runBody stage cfg runs db h5 h6
  constructor
  · simp [Subtask.runOk, h, Subtask.runBody, h4]
  · have hpre : (Subtask.preEvents cfg).filter isSyncEv = [] := by
      cases hinc : cfg.incremental <;> simp [Subtask.preEvents, hinc, isSyncEv]
    simp [Subtask.runTrace, h, Subtask.runBody, h1, h2, h3, h4,
      List.filter_append, hpre, runLoop_filter_sync, runLoop_errored, isSyncEv]

/-- C2 witness: with interval 100 and a 250-item sequence, the cadence
theorem applies and yields exactly two checkpoint-plus-progress pairs,
at indices 100 and 200. -/
theorem run_checkpoint_cadence_witness :
    (Subtask.runOk unitStage cfg250 [] () = true ∧
      (Subtask.runTrace unitStage cfg250 [] ()).filter isSyncEv
        = syncExpected cfg250.sync_point_interval (enumFromIdx 0 cfg250.items)) ∧
    syncExpected cfg250.sync_point_interval (enumFromIdx 0 cfg250.items)
      = [Ev.ckptCommit 100 [("k", 100)], Ev.progress 100 100,
         Ev.ckptCommit 200 [("k", 200)], Ev.progress 100 200] :=
  ⟨run_checkpoint_cadence unitStage cfg250 [] () (by decide) rfl rfl rfl rfl rfl rfl,
    by decide⟩

/-- C3: when the fetch sequence raises after yielding its items (the
last being `(d, s)`), the run still returns normally and the finalized
checkpoint row has its completion timestamp set and its state equal to
the state `s` yielded alongside the last item; the error is logged. -/
theorem run_finalizes_on_fetch_error {σ : Type} (stage : Stage σ) (cfg : RunCfg)
    (runs : List SubtaskRun) (db : σ)
    (hra : cfg.fetchRaisesAfter = true)
    (h2 : cfg.processRaisesAt = none) (h3 : cfg.checkpointRaisesAt = none)
    (h4 : cfg.finalizeRaises = false) (h5 : cfg.deleteRaises = false)
    (h6 : cfg.getStateRaises = false)
    (pre : List (Data × St)) (d : Data) (s : St)
    (hitems : cfg.items = pre ++ [(d, s)]) :
    Subtask.runOk stage cfg runs db = true ∧
    (Subtask.runRecD stage cfg runs db).completed.isSome = true ∧
    (Subtask.runRecD stage cfg runs db).state = s ∧
    Ev.errLog ∈ Subtask.runTrace stage cfg runs db := by
  have h := run_eq_runBody stage cfg runs db h5 h6
  refine ⟨?_, ?_, ?_, ?_⟩
  · simp [Subtask.runOk, h, Subtask.runBody, h4]
  · simp [Subtask.runRecD, h, Subtask.runBody, h4]
  · simp [Subtask.runRecD, h, Subtask.runBody, h4, h2, h3, runLoop_state,
      hitems, lastStateD_concat]
  · simp [Subtask.runTrace, h, Subtask.runBody, h4, h2, h3, hra,
      runLoop_errored]

/-- C3 witness: a sequence that raises after yielding 3 items finalizes
with completion set and the state of item 3. -/
theorem run_finalizes_on_fetch_error_witness :
    Subtask.runOk unitStage cfg3of10 [] () = true ∧
    (Subtask.runRecD unitStage cfg3of10 [] ()).completed.isSome = true ∧
    (Subtask.runRecD unitStage cfg3of10 [] ()).state = [("page", 3)] ∧
    Ev.errLog ∈ Subtask.runTrace unitStage cfg3of10 [] () :=
  run_finalizes_on_fetch_error unitStage cfg3of10 [] () rfl rfl rfl rfl rfl rfl
    [(1, [("page", 1)]), (2, [("page", 2)])] 3 [("page", 3)] rfl

/-- C4 counterexample: a stage whose `delete` raises makes the run
propagate the exception to its caller — `delete` is evaluated before
the try block, so the claim that no exception ever propagates and every
run finalizes a checkpoint is false. -/
theorem run_propagates_delete_error_cex :
    Subtask.run unitStage cfgDeleteRaises [] () = Except.error [Ev.addRun] := rfl

/-- C4 amended: exceptions raised while iterating the fetch sequence
(the generator itself, `process`, the checkpoint commits) are caught,
logged and the run still finalizes a completed checkpoint; this holds
for every stage and input only when `delete`, the last-state query and
the finalization commit — which sit outside the try block — do not
themselves raise. -/
theorem run_catches_loop_errors {σ : Type} (stage : Stage σ) (cfg : RunCfg)
    (runs : List SubtaskRun) (db : σ)
    (h4 : cfg.finalizeRaises = false) (h5 : cfg.deleteRaises = false)
    (h6 : cfg.getStateRaises = false) :
    Subtask.runOk stage cfg runs db = true ∧
    (Subtask.runRecD stage cfg runs db).completed.isSome = true := by
  have h := run_eq_runBody stage cfg runs db h5 h6
  constructor
  · simp [Subtask.runOk, h, Subtask.runBody, h4]
  · simp [Subtask.runRecD, h, Subtask.runBody, h4]

/-- C4 amended witness: with process raising at index 0 and the fetch
generator raising too, the run still returns normally with a completed
checkpoint. -/
theorem run_catches_loop_errors_witness :
    Subtask.runOk unitStage cfgProcRaises [] () = true ∧
    (Subtask.runRecD unitStage cfgProcRaises [] ()).completed.isSome = true :=
  run_catches_loop_errors unitStage cfgProcRaises [] () rfl rfl rfl

/-- C5: an incremental run begins with the start record followed by a
fetch whose initial state is the last completed state for (stage name,
connection id), and never calls `delete`; a full-refresh run calls
`delete` after the start record and before a fetch whose initial state
is empty. -/
theorem run_mode_dispatch {σ : Type} (stage : Stage σ) (cfg : RunCfg)
    (runs : List SubtaskRun) (db : σ)
    (h5 : cfg.deleteRaises = false) (h6 : cfg.getStateRaises = false) :
    (cfg.incremental = true →
      (Subtask.runTrace stage cfg runs db).take 2
        = [Ev.addRun,
           Ev.fetchInit (Subtask.get_last_state runs stage.name cfg.connection_id)] ∧
      Ev.deleteCall ∉ Subtask.runTrace stage cfg runs db) ∧
    (cfg.incremental = false →
      (Subtask.runTrace stage cfg runs db).take 3
        = [Ev.addRun, Ev.deleteCall, Ev.fetchInit []]) := by
  have h := run_eq_runBody stage cfg runs db h5 h6
  constructor
  · intro hinc
    constructor <;>
      cases hf : cfg.finalizeRaises <;>
        simp [Subtask.runTrace, h, Subtask.runBody, hf, Subtask.preEvents,
          Subtask.initState, hinc, runLoop_no_deleteCall,
          deleteCall_not_mem_errLogOpt]
  · intro hinc
    cases hf : cfg.finalizeRaises <;>
      simp [Subtask.runTrace, h, Subtask.runBody, hf, Subtask.preEvents,
        Subtask.initState, hinc]

/-- C5 witness: an incremental run over the two-row checkpoint table
starts fetch from the stored state and never deletes, as given by the
theorem at a concrete configuration. -/
theorem run_mode_dispatch_witness :
    (Subtask.runTrace collectStage cfgIncr [runEarly, runLate] ()).take 2
      = [Ev.addRun, Ev.fetchInit [("cursor", 1)]] ∧
    Ev.deleteCall ∉ Subtask.runTrace collectStage cfgIncr [runEarly, runLate] () := by
  have h := (run_mode_dispatch collectStage cfgIncr [runEarly, runLate] () rfl rfl).1 rfl
  exact ⟨h.1.trans (by decide), h.2⟩

lemma foldl_collector_process (P : Params) (items : List (Data × St)) :
    ∀ db : List RawRecord,
      items.foldl (fun acc p => Collector.processOp P p.1 acc) db
        = db ++ items.map (fun p => Collector.raw_record P p.1) := by
  induction items with
  | nil => intro db; simp
  | cons hd tl ih =>
    intro db
    rw [List.foldl_cons, ih]
    simp [Collector.processOp]

lemma filter_deleteOp (P : Params) (db : List RawRecord) :
    (Collector.deleteOp P db).filter (fun r => r.params == P) = [] := by
  induction db with
  | nil => rfl
  | cons r tl ih =>
    by_cases hp : (r.params == P) = true
    · have hstep : Collector.deleteOp P (r :: tl) = Collector.deleteOp P tl := by
        simp [Collector.deleteOp, List.filter_cons, hp]
      rw [hstep]; exact ih
    · have hstep : Collector.deleteOp P (r :: tl) = r :: Collector.deleteOp P tl := by
        simp [Collector.deleteOp, List.filter_cons, hp]
      rw [hstep, List.filter_cons]
      simpa [hp] using ih

lemma filter_new_records (P : Params) (items : List (Data × St)) :
    (items.map (fun p => Collector.raw_record P p.1)).filter
        (fun r => r.params == P)
      = items.map (fun p => Collector.raw_record P p.1) := by
  induction items with
  | nil => rfl
  | cons hd tl ih =>
    rw [List.map_cons, List.filter_cons]
    have hp : ((Collector.raw_record P hd.1).params == P) = true := by
      simp [Collector.raw_record]
    rw [if_pos hp, ih]

/-- C6: a clean full-refresh Collector run over fingerprint P leaves the
raw table equal to the prior rows whose params differ from P followed by
exactly one new row per fetched item, each tagged with P and carrying
the JSON encoding of the item; in particular the rows with params P
afterwards are exactly the newly fetched ones. -/
theorem collector_full_refresh (name : String) (P : Params) (cfg : RunCfg)
    (runs : List SubtaskRun) (db0 : List RawRecord)
    (hinc : cfg.incremental = false)
    (h1 : cfg.fetchRaisesAfter = false) (h2 : cfg.processRaisesAt = none)
    (h3 : cfg.checkpointRaisesAt = none) (h4 : cfg.finalizeRaises = false)
    (h5 : cfg.deleteRaises = false) (h6 : cfg.getStateRaises = false) :
    Subtask.runOk (Collector.stage name P) cfg runs db0 = true ∧
    Subtask.runDbD (Collector.stage name P) cfg runs db0
      = db0.filter (fun r => !(r.params == P))
        ++ cfg.items.map (fun p => Collector.raw_record P p.1) ∧
    (Subtask.runDbD (Collector.stage name P) cfg runs db0).filter
        (fun r => r.params == P)
      = cfg.items.map (fun p => Collector.raw_record P p.1) := by
  have h := run_eq_runBody (Collector.stage name P) cfg runs db0 h5 h6
  have hdb : Subtask.runDbD (Collector.stage name P) cfg runs db0
      = db0.filter (fun r => !(r.params == P))
        ++ cfg.items.map (fun p => Collector.raw_record P p.1) := by
    simp only [Subtask.runDbD]
    rw [h]
    simp [Subtask.runBody, h4, h2, h3, runLoop_db, Subtask.initDb, hinc,
      Collector.stage, foldl_collector_process, Collector.deleteOp]
  refine ⟨?_, hdb, ?_⟩
  · simp only [Subtask.runOk]
    rw [h]
    simp [Subtask.runBody, h4]
  · rw [hdb, List.filter_append]
    have hd := filter_deleteOp P db0
    simp only [Collector.deleteOp] at hd
    rw [hd, filter_new_records, List.nil_append]

/-- C6 witness: collecting two items over fingerprint `paramsP` with a
prior table holding one row of the same fingerprint and one of a
different fingerprint leaves exactly the other-fingerprint row plus the
two new rows. -/
theorem collector_full_refresh_witness :
    (Subtask.runOk (Collector.stage "collectFooBar" paramsP) cfgCollect []
        [rawOldP, rawOldQ] = true ∧
      Subtask.runDbD (Collector.stage "collectFooBar" paramsP) cfgCollect []
          [rawOldP, rawOldQ]
        = [rawOldP, rawOldQ].filter (fun r => !(r.params == paramsP))
          ++ cfgCollect.items.map (fun p => Collector.raw_record paramsP p.1) ∧
      (Subtask.runDbD (Collector.stage "collectFooBar" paramsP) cfgCollect []
          [rawOldP, rawOldQ]).filter (fun r => r.params == paramsP)
        = cfgCollect.items.map (fun p => Collector.raw_record paramsP p.1)) ∧
    Subtask.runDbD (Collector.stage "collectFooBar" paramsP) cfgCollect []
        [rawOldP, rawOldQ]
      = [rawOldQ, Collector.raw_record paramsP 41, Collector.raw_record paramsP 42] :=
  ⟨collector_full_refresh "collectFooBar" paramsP cfgCollect [] [rawOldP, rawOldQ]
      rfl rfl rfl rfl rfl rfl rfl,
    by decide⟩

/-- C7: a convert returning a single DomainModel yields exactly one
upsert; one returning a generator of two DomainModels yields exactly two
upserts; a convert producing a non-DomainModel value yields zero upserts
for that value and one logged error, without raising, and a later value
of the same generator is still upserted. -/
theorem convertor_polymorphism (tm : ToolModel) (cid : Nat) (eff : ConvEffects)
    (m m1 m2 : DomainModel) (s : String) :
    ((Convertor.process (fun _ => .single (.domain m)) tm cid eff).eff.upserts.length
        = eff.upserts.length + 1 ∧
      (Convertor.process (fun _ => .single (.domain m)) tm cid eff).eff.errors
        = eff.errors ∧
      (Convertor.process (fun _ => .single (.domain m)) tm cid eff).raised = false) ∧
    ((Convertor.process (fun _ => .gen [.domain m1, .domain m2]) tm cid eff).eff.upserts.length
        = eff.upserts.length + 2 ∧
      (Convertor.process (fun _ => .gen [.domain m1, .domain m2]) tm cid eff).eff.errors
        = eff.errors ∧
      (Convertor.process (fun _ => .gen [.domain m1, .domain m2]) tm cid eff).raised
        = false) ∧
    ((Convertor.process (fun _ => .single (.other s)) tm cid eff).eff.upserts
        = eff.upserts ∧
      (Convertor.process (fun _ => .single (.other s)) tm cid eff).eff.errors
        = eff.errors + 1 ∧
      (Convertor.process (fun _ => .single (.other s)) tm cid eff).raised = false) ∧
    ((Convertor.process (fun _ => .gen [.other s, .domain m1]) tm cid eff).eff.upserts.length
        = eff.upserts.length + 1 ∧
      (Convertor.process (fun _ => .gen [.other s, .domain m1]) tm cid eff).eff.errors
        = eff.errors + 1) := by
  refine ⟨⟨?_, ?_, rfl⟩, ⟨?_, ?_, rfl⟩, ⟨?_, ?_, rfl⟩, ?_, ?_⟩ <;>
    simp [Convertor.process, Convertor.save]

lemma save_upserts_mem (tm : ToolModel) (v : ConvValue) (cid : Nat)
    (eff : ConvEffects) (r : DomainModel)
    (h : r ∈ (Convertor.save tm v cid eff).upserts) :
    r ∈ eff.upserts ∨ r.id = generate_domain_id tm cid := by
  cases v with
  | other s => exact Or.inl (by simpa [Convertor.save] using h)
  | domain m =>
    have h2 : r ∈ eff.upserts ∨
        r = { id := generate_domain_id tm cid, payload := m.payload } := by
      simpa [Convertor.save] using h
    rcases h2 with h1 | h1
    · exact Or.inl h1
    · subst h1
      exact Or.inr rfl

lemma foldl_save_upserts_mem (tm : ToolModel) (cid : Nat) (vs : List ConvValue) :
    ∀ (eff : ConvEffects) (r : DomainModel),
      r ∈ (vs.foldl (fun e v => Convertor.save tm v cid e) eff).upserts →
        r ∈ eff.upserts ∨ r.id = generate_domain_id tm cid := by
  induction vs with
  | nil => intro eff r h; exact Or.inl (by simpa using h)
  | cons v tl ih =>
    intro eff r h
    rcases ih (Convertor.save tm v cid eff) r (by simpa using h) with h1 | h1
    · exact save_upserts_mem tm v cid eff r h1
    · exact Or.inr h1

lemma colon_length : (":" : String).length = 1 := rfl

lemma generate_domain_id_length (tm : ToolModel) (c : Nat) :
    (generate_domain_id tm c).length = tm.pk.length + 1 + c := by
  simp [generate_domain_id, String.length_append, String.length_mk, colon_length]

/-- C8: every domain row the Convertor upserts that was not already
among the accumulated upserts carries the identifier
`generate_domain_id(tool record, connection id)`, assigned before the
merge; the generator is a pure function, so identical inputs give
identical ids, and different connection ids for the same tool identity
give different ids. -/
theorem convertor_domain_id (f : Nat → ConvResult) (tm : ToolModel)
    (cid c1 c2 : Nat) (eff : ConvEffects) (r : DomainModel)
    (hmem : r ∈ (Convertor.process f tm cid eff).eff.upserts)
    (hne : c1 ≠ c2) :
    (r ∈ eff.upserts ∨ r.id = generate_domain_id tm cid) ∧
    generate_domain_id tm cid = generate_domain_id tm cid ∧
    generate_domain_id tm c1 ≠ generate_domain_id tm c2 := by
  refine ⟨?_, rfl, ?_⟩
  · cases hf0 : f 0 with
    | single v =>
      rw [Convertor.process, hf0] at hmem
      exact save_upserts_mem tm v cid eff r hmem
    | gen xs =>
      cases hf1 : f 1 with
      | gen ys =>
        rw [Convertor.process, hf0, hf1] at hmem
        exact foldl_save_upserts_mem tm cid ys eff r hmem
      | single v =>
        rw [Convertor.process, hf0, hf1] at hmem
        exact Or.inl hmem
  · intro heq
    have hl := congrArg String.length heq
    rw [generate_domain_id_length, generate_domain_id_length] at hl
    omega

/-- C8 witness: the row produced for `toolW` on connection 1 carries the
generated id, and connections 1 and 2 give different ids for `toolW`. -/
theorem convertor_domain_id_witness :
    (domW ∈ (⟨[], 0⟩ : ConvEffects).upserts ∨
      domW.id = generate_domain_id toolW 1) ∧
    generate_domain_id toolW 1 = generate_domain_id toolW 1 ∧
    generate_domain_id toolW 1 ≠ generate_domain_id toolW 2 :=
  convertor_domain_id (fun _ => .single (.domain ⟨"x", 5⟩)) toolW 1 1 2 ⟨[], 0⟩
    domW (by decide) (by decide)

/-- C9 counterexample: in a clean two-item run, the start record is
added to the session before fetch begins, but no commit happens before
fetch begins — the new SubtaskRun is not durably persisted at that
point, refuting the claim that every checkpoint-store write is durable
before the engine proceeds past it. -/
theorem start_subtask_not_durable_cex :
    Ev.addRun ∈ ((Subtask.runTrace unitStage cfgStartTwo [] ()).takeWhile
        (fun e => !isFetchInit e)) ∧
    ((Subtask.runTrace unitStage cfgStartTwo [] ()).takeWhile
        (fun e => !isFetchInit e)).all (fun e => !isCommit e) = true := by
  decide

/-- C9 amended: the run starts by creating a SubtaskRun with empty state
and no completion time and adding it to the session before fetch begins,
but that row is first made durable only at a later commit; in a run
whose pre-loop steps and finalization do not raise, no commit at all
occurs before fetch begins, and the trace ends with the finalization
commit of the final state. -/
theorem start_subtask_added_then_committed {σ : Type} (stage : Stage σ)
    (cfg : RunCfg) (runs : List SubtaskRun) (db : σ)
    (h4 : cfg.finalizeRaises = false) (h5 : cfg.deleteRaises = false)
    (h6 : cfg.getStateRaises = false) :
    (Subtask.start_subtask stage.name cfg.connection_id 0).state = [] ∧
    (Subtask.start_subtask stage.name cfg.connection_id 0).completed = none ∧
    (Subtask.runTrace stage cfg runs db).head? = some Ev.addRun ∧
    ((Subtask.runTrace stage cfg runs db).takeWhile (fun e => !isFetchInit e)).all
      (fun e => !isCommit e) = true ∧
    (Subtask.runTrace stage cfg runs db).reverse.head?
      = some (Ev.finalCommit (Subtask.runRecD stage cfg runs db).state) := by
  have h := run_eq_runBody stage cfg runs db h5 h6
  refine ⟨rfl, rfl, ?_, ?_, ?_⟩ <;>
    cases hinc : cfg.incremental <;>
      simp [Subtask.runTrace, Subtask.runRecD, h, Subtask.runBody, h4,
        Subtask.preEvents, hinc, List.takeWhile_cons, isFetchInit, isCommit]

/-- C9 amended witness: the amended start/commit ordering at the
concrete two-item configuration. -/
theorem start_subtask_added_then_committed_witness :
    (Subtask.start_subtask unitStage.name cfgStartTwo.connection_id 0).state = [] ∧
    (Subtask.start_subtask unitStage.name cfgStartTwo.connection_id 0).completed
      = none ∧
    (Subtask.runTrace unitStage cfgStartTwo [] ()).head? = some Ev.addRun ∧
    ((Subtask.runTrace unitStage cfgStartTwo [] ()).takeWhile
        (fun e => !isFetchInit e)).all (fun e => !isCommit e) = true ∧
    (Subtask.runTrace unitStage cfgStartTwo [] ()).reverse.head?
      = some (Ev.finalCommit (Subtask.runRecD unitStage cfgStartTwo [] ()).state) :=
  start_subtask_added_then_committed unitStage cfgStartTwo [] () rfl rfl rfl

/-- C10: when the stream's convert returns a generator, the Convertor
invokes convert a second time and upserts the values of that second
invocation; the generator returned by the first invocation is never
consumed (the outcome is unchanged under any replacement of its
contents); convert is invoked exactly twice in the generator case and
exactly once in the single-value case. -/
theorem convertor_generator_double_invocation (f g : Nat → ConvResult)
    (tm : ToolModel) (cid : Nat) (eff : ConvEffects)
    (xs ys zs : List ConvValue) (v : ConvValue)
    (hf0 : f 0 = .gen xs) (hf1 : f 1 = .gen ys)
    (hg0 : g 0 = .gen zs) (hg1 : g 1 = f 1) :
    (Convertor.process f tm cid eff).calls = 2 ∧
    (Convertor.process f tm cid eff).eff
      = ys.foldl (fun e w => Convertor.save tm w cid e) eff ∧
    Convertor.process g tm cid eff = Convertor.process f tm cid eff ∧
    (Convertor.process (fun _ => ConvResult.single v) tm cid eff).calls = 1 := by
  refine ⟨?_, ?_, ?_, ?_⟩
  · simp [Convertor.process, hf0, hf1]
  · simp [Convertor.process, hf0, hf1]
  · simp [Convertor.process, hf0, hf1, hg0, hg1]
  · simp [Convertor.process]

/-- C10 witness: `fGen` and `gGen` agree from the second invocation on
but return different first generators; the Convertor makes two calls,
upserts the second invocation's values, and its outcome ignores the
first generator's contents. -/
theorem convertor_generator_double_invocation_witness :
    (Convertor.process fGen toolW 1 ⟨[], 0⟩).calls = 2 ∧
    (Convertor.process fGen toolW 1 ⟨[], 0⟩).eff
      = [ConvValue.domain ⟨"", 3⟩].foldl
          (fun e w => Convertor.save toolW w 1 e) ⟨[], 0⟩ ∧
    Convertor.process gGen toolW 1 ⟨[], 0⟩ = Convertor.process fGen toolW 1 ⟨[], 0⟩ ∧
    (Convertor.process (fun _ => ConvResult.single (ConvValue.other "junk"))
        toolW 1 ⟨[], 0⟩).calls = 1 :=
  convertor_generator_double_invocation fGen gGen toolW 1 ⟨[], 0⟩
    [ConvValue.other "first-call"] [ConvValue.domain ⟨"", 3⟩] []
    (ConvValue.other "junk") rfl rfl rfl rfl

end Pydevlake
